import Mathlib

/-!
Verification development for the hdf5-iotest benchmark driver
(src/hdf5_iotest.c).  The definitions below are a shallow embedding of the
code in `main` and `set_libver_bounds`: C strings become Lean `String`s
(the characters before the terminating NUL), C integers holding validated
nonnegative quantities become `Nat`, and the C `double` timing and rate
arithmetic is carried out exactly over `ℚ`.
-/

namespace Hdf5Iotest

/-- Model of C `strncmp(s1, s2, n)` where the two lists hold the characters
of each string before its terminating NUL.  Comparison stops at the first
differing character, at the end of either string (the NUL terminator,
value 0), or after `n` characters. -/
def cstrncmp : List Char → List Char → Nat → Int
  | _, _, 0 => 0
  | [], [], _ + 1 => 0
  | [], c :: _, _ + 1 => 0 - (c.toNat : Int)
  | c :: _, [], _ + 1 => (c.toNat : Int)
  | c₁ :: t₁, c₂ :: t₂, n + 1 => if c₁ = c₂ then cstrncmp t₁ t₂ n else (c₁.toNat : Int) - (c₂.toNat : Int)

/-- A Lean `String` faithfully represents a C string only when none of its
characters is the NUL terminator. -/
def NulFree (s : String) : Prop := ∀ c ∈ s.toList, c.toNat ≠ 0

instance (s : String) : Decidable (NulFree s) := by
  unfold NulFree; infer_instance

/-- The experiment configuration, as read by rank 0 from the `.ini` file and
broadcast byte-for-byte to every process (`configuration` in the C code).
Numeric fields hold the validated, nonnegative values used by `main`. -/
structure Configuration where
  steps : Nat
  arrays : Nat
  rows : Nat
  cols : Nat
  scaling : String
  proc_rows : Nat
  proc_cols : Nat
  slowest_dimension : String
  rank : Nat
  alignment_increment : Nat
  alignment_threshold : Nat
  layout : String
  fill_values : String
  mpi_io : String
  libver_bound_low : String
  libver_bound_high : String
  hdf5_file : String
  csv_file : String

/-- `strong_scaling_flg = (strncmp(config.scaling, "strong", 16) == 0)`
(hdf5_iotest.c line 75). -/
def strong_scaling_flg (c : Configuration) : Bool :=
  cstrncmp c.scaling.toList ("strong").toList 16 == 0

/-- `my_rows = strong_scaling_flg ? config.rows/config.proc_rows : config.rows`
(line 76). -/
def my_rows (c : Configuration) : Nat :=
  if strong_scaling_flg c then c.rows / c.proc_rows else c.rows

/-- `my_cols = strong_scaling_flg ? config.cols/config.proc_cols : config.cols`
(line 77). -/
def my_cols (c : Configuration) : Nat :=
  if strong_scaling_flg c then c.cols / c.proc_cols else c.cols

/-- `my_proc_row = rank / config.proc_cols; my_proc_col = rank % config.proc_cols`
(lines 72-73), as a single pair. -/
def gridCoord (rank proc_cols : Nat) : Nat × Nat :=
  (rank / proc_cols, rank % proc_cols)

/-- The two MPI data-transfer modes selectable through `H5Pset_dxpl_mpio`. -/
inductive XferMode
  | collective
  | independent
deriving DecidableEq

/-- `coll_mpi_io_flg = (strncmp(config.mpi_io, "collective", 16) == 0)`
(line 80). -/
def coll_mpi_io_flg (c : Configuration) : Bool :=
  cstrncmp c.mpi_io.toList ("collective").toList 16 == 0

/-- Lines 81-84: collective transfer mode when `coll_mpi_io_flg`, otherwise
independent; no other outcome exists. -/
def xferMode (c : Configuration) : XferMode :=
  if coll_mpi_io_flg c then .collective else .independent

/- ### Basic facts about the strncmp model -/

theorem cstrncmp_zero (s t : List Char) : cstrncmp s t 0 = 0 := by
  cases s <;> cases t <;> rfl

/-- `cstrncmp` only inspects the first `n` characters of either string. -/
theorem cstrncmp_take (s t : List Char) (n : Nat) :
    cstrncmp s t n = cstrncmp (s.take n) (t.take n) n := by
  induction n generalizing s t with
  | zero => rw [cstrncmp_zero, cstrncmp_zero]
  | succ n ih =>
    cases s with
    | nil => cases t <;> rfl
    | cons c₁ t₁ =>
      cases t with
      | nil => rfl
      | cons c₂ t₂ =>
        simp only [List.take_succ_cons, cstrncmp]
        by_cases h : c₁ = c₂
        · simp only [h, if_pos rfl]
          exact ih t₁ t₂
        · simp only [if_neg h]

theorem char_toNat_inj {c₁ c₂ : Char} (h : c₁.toNat = c₂.toNat) : c₁ = c₂ :=
  Char.ext (UInt32.ext h)

/-- On NUL-free strings, the 16-character bounded comparison against a literal
of fewer than 16 characters decides genuine string equality. -/
theorem cstrncmp_eq_zero_iff (s t : List Char) (n : Nat)
    (hs : ∀ c ∈ s, c.toNat ≠ 0) (ht : ∀ c ∈ t, c.toNat ≠ 0)
    (hn : t.length < n) :
    cstrncmp s t n = 0 ↔ s = t := by
  induction n generalizing s t with
  | zero => omega
  | succ n ih =>
    cases s with
    | nil =>
      cases t with
      | nil => simp [cstrncmp]
      | cons c tt =>
        have hc : c.toNat ≠ 0 := ht c (List.mem_cons_self c tt)
        simp only [cstrncmp]
        constructor
        · intro h; exact absurd h (by omega)
        · intro h; simp at h
    | cons c₁ t₁ =>
      cases t with
      | nil =>
        have hc : c₁.toNat ≠ 0 := hs c₁ (List.mem_cons_self c₁ t₁)
        simp only [cstrncmp]
        constructor
        · intro h; exact absurd h (by omega)
        · intro h; simp at h
      | cons c₂ t₂ =>
        by_cases hc : c₁ = c₂
        · subst hc
          have hrec := ih t₁ t₂ (fun c hcm => hs c (List.mem_cons_of_mem _ hcm))
            (fun c hcm => ht c (List.mem_cons_of_mem _ hcm))
            (by simpa using Nat.lt_of_succ_lt_succ hn)
          simp [cstrncmp, hrec]
        · have hne : (c₁.toNat : Int) - c₂.toNat ≠ 0 :=
            fun h => hc (char_toNat_inj (by omega))
          simp [cstrncmp, hc, hne]

/- ### Timing records and MPI reductions (lines 110-163) -/

/-- The per-process elapsed-seconds measurements of one run, modelled over
`ℚ`: full write phase, create-only and write-only sub-phases, full read
phase, read-only sub-phase (lines 42, 110-120). -/
structure TimingRecord where
  write_phase : ℚ
  create_time : ℚ
  write_time : ℚ
  read_phase : ℚ
  read_time : ℚ

/-- `MPI_Reduce(..., MPI_MIN, 0, ...)` over one contribution per rank:
`x` is rank 0's value and `xs` the remaining ranks' values. -/
def mpiReduceMin (x : ℚ) (xs : List ℚ) : ℚ := xs.foldl min x

/-- `MPI_Reduce(..., MPI_MAX, 0, ...)` over one contribution per rank. -/
def mpiReduceMax (x : ℚ) (xs : List ℚ) : ℚ := xs.foldl max x

/-- The ten reduced values visible on rank 0 after lines 144-163. -/
structure AggStats where
  min_write_phase : ℚ
  max_write_phase : ℚ
  min_create_time : ℚ
  max_create_time : ℚ
  min_write_time : ℚ
  max_write_time : ℚ
  min_read_phase : ℚ
  max_read_phase : ℚ
  min_read_time : ℚ
  max_read_time : ℚ

/-- The ten `MPI_Reduce` calls of lines 144-163: each tracked field is
reduced twice over the same per-process values, once with `MPI_MIN` and once
with `MPI_MAX`.  `r` is rank 0's record, `rs` the other ranks' records. -/
def aggregate (r : TimingRecord) (rs : List TimingRecord) : AggStats where
  min_write_phase := mpiReduceMin r.write_phase (rs.map (·.write_phase))
  max_write_phase := mpiReduceMax r.write_phase (rs.map (·.write_phase))
  min_create_time := mpiReduceMin r.create_time (rs.map (·.create_time))
  max_create_time := mpiReduceMax r.create_time (rs.map (·.create_time))
  min_write_time := mpiReduceMin r.write_time (rs.map (·.write_time))
  max_write_time := mpiReduceMax r.write_time (rs.map (·.write_time))
  min_read_phase := mpiReduceMin r.read_phase (rs.map (·.read_phase))
  max_read_phase := mpiReduceMax r.read_phase (rs.map (·.read_phase))
  min_read_time := mpiReduceMin r.read_time (rs.map (·.read_time))
  max_read_time := mpiReduceMax r.read_time (rs.map (·.read_time))

/-- `byte_count = (double)config.steps*config.arrays*my_rows*my_cols*sizeof(double)`
(lines 167-168), exact over `ℚ`; `sizeof(double) = 8`. -/
def byte_count (steps arrays myRows myCols : Nat) : ℚ :=
  (steps : ℚ) * (arrays : ℚ) * (myRows : ℚ) * (myCols : ℚ) * 8

/-- The derived throughput report of lines 167-172, computed on rank 0 from
its own local extent and the reduced timings. -/
structure RateReport where
  byteCount : ℚ
  min_write_rate : ℚ
  max_write_rate : ℚ
  min_read_rate : ℚ
  max_read_rate : ℚ

/-- The `byte_count` local of line 167, instantiated the way `main` does:
with the reporting process's own `my_rows`/`my_cols`. -/
def mainByteCount (c : Configuration) : ℚ :=
  byte_count c.steps c.arrays (my_rows c) (my_cols c)

/-- Lines 167-172: the four throughput rates.  The byte count is the
reporting process's per-process volume (its `my_rows`/`my_cols`), and each
minimum rate divides by the corresponding *maximum* reduced time while each
maximum rate divides by the *minimum* reduced time. -/
def rateReport (c : Configuration) (st : AggStats) : RateReport :=
  { byteCount := mainByteCount c
    min_write_rate := mainByteCount c / (1024 * 1024 * st.max_write_time)
    max_write_rate := mainByteCount c / (1024 * 1024 * st.min_write_time)
    min_read_rate := mainByteCount c / (1024 * 1024 * st.max_read_time)
    max_read_rate := mainByteCount c / (1024 * 1024 * st.min_read_time) }

/- ### Fold lemmas for the reductions -/

theorem foldl_min_le_foldl_max (xs : List ℚ) (x y : ℚ) (h : x ≤ y) :
    xs.foldl min x ≤ xs.foldl max y := by
  induction xs generalizing x y with
  | nil => exact h
  | cons a l ih =>
    simp only [List.foldl_cons]
    exact ih (min x a) (max y a)
      (le_trans (min_le_left x a) (le_trans h (le_max_left y a)))

theorem mpiReduceMin_le_mpiReduceMax (x : ℚ) (xs : List ℚ) :
    mpiReduceMin x xs ≤ mpiReduceMax x xs :=
  foldl_min_le_foldl_max xs x x le_rfl

/-- The MAX reduction returns one of the contributed values, and every
contributed value is bounded by it. -/
theorem mpiReduceMax_spec (x : ℚ) (xs : List ℚ) :
    mpiReduceMax x xs ∈ x :: xs ∧ ∀ u ∈ x :: xs, u ≤ mpiReduceMax x xs := by
  unfold mpiReduceMax
  induction xs generalizing x with
  | nil => simp
  | cons a l ih =>
    obtain ⟨hmem, hub⟩ := ih (max x a)
    simp only [List.mem_cons] at hmem hub ⊢
    simp only [List.foldl_cons]
    constructor
    · rcases hmem with hmem | hmem
      · rcases max_choice x a with hx | hx
        · exact .inl (hmem.trans hx)
        · exact .inr (.inl (hmem.trans hx))
      · exact .inr (.inr hmem)
    · intro u hu
      rcases hu with hu | hu | hu
      · exact (hu.le.trans (le_max_left x a)).trans (hub _ (.inl rfl))
      · exact (hu.le.trans (le_max_right x a)).trans (hub _ (.inl rfl))
      · exact hub u (.inr hu)

/-- The MIN reduction returns one of the contributed values, and it bounds
every contributed value from below. -/
theorem mpiReduceMin_spec (x : ℚ) (xs : List ℚ) :
    mpiReduceMin x xs ∈ x :: xs ∧ ∀ u ∈ x :: xs, mpiReduceMin x xs ≤ u := by
  unfold mpiReduceMin
  induction xs generalizing x with
  | nil => simp
  | cons a l ih =>
    obtain ⟨hmem, hlb⟩ := ih (min x a)
    simp only [List.mem_cons] at hmem hlb ⊢
    simp only [List.foldl_cons]
    constructor
    · rcases hmem with hmem | hmem
      · rcases min_choice x a with hx | hx
        · exact .inl (hmem.trans hx)
        · exact .inr (.inl (hmem.trans hx))
      · exact .inr (.inr hmem)
    · intro u hu
      rcases hu with hu | hu | hu
      · exact ((hlb _ (.inl rfl)).trans (min_le_left x a)).trans hu.ge
      · exact ((hlb _ (.inl rfl)).trans (min_le_right x a)).trans hu.ge
      · exact hlb u (.inr hu)

/- ### CSV emission (lines 194-219) -/

def commaStr : String := ","

def newlineStr : String := "\n"

def dashStr : String := "-"

def dotStr : String := "."

def zeroPadStr : String := "0"

def emptyStr : String := ""

/-- Renders a `ℚ` the way `fprintf` `%.2f` renders the corresponding
`double`: sign, integer part, a dot, two fractional digits (rounded to the
nearest hundredth; digit-level rounding details of the binary `double` are
immaterial to the claims, which concern the field structure of the row). -/
def fmt2 (q : ℚ) : String :=
  let n : Int := round ((100 : ℚ) * q)
  let m : Nat := n.natAbs
  (if n < 0 then dashStr else emptyStr) ++ Nat.repr (m / 100) ++ dotStr ++
    (if m % 100 < 10 then zeroPadStr else emptyStr) ++ Nat.repr (m % 100)

/-- Renders a `ℚ` the way `%.0f` renders the corresponding `double`. -/
def fmt0 (q : ℚ) : String :=
  let n : Int := round q
  (if n < 0 then dashStr else emptyStr) ++ Nat.repr n.natAbs

/-- The 26 header fields emitted by the first `fprintf` (lines 197-204),
transcribed in order from the format-string literal. -/
def csvHeaderFields : List String :=
  ["steps", "arrays", "rows", "cols", "scaling", "proc-rows", "proc-cols",
   "slowdim", "rank", "alignment-increment", "alignment-threshold",
   "layout", "fill", "mpi-io", "wall [s]", "fsize [B]",
   "write-phase-min [s]", "write-phase-max [s]",
   "creat-min [s]", "creat-max [s]",
   "write-min [s]", "write-max [s]",
   "read-phase-min [s]", "read-phase-max [s]",
   "read-min [s]", "read-max [s]"]

/-- The exact header line written by lines 197-204 (the concatenation of the
C string literal pieces, including the terminating newline). -/
def csvHeaderLine : String :=
  "steps,arrays,rows,cols,scaling,proc-rows,proc-cols,slowdim,rank,alignment-increment,alignment-threshold,layout,fill,mpi-io,wall [s],fsize [B],write-phase-min [s],write-phase-max [s],creat-min [s],creat-max [s],write-min [s],write-max [s],read-phase-min [s],read-phase-max [s],read-min [s],read-max [s]\n"

/-- The field names as the design document (section 6) spells them, with no
space before the bracketed unit. -/
def specHeaderFields : List String :=
  ["steps", "arrays", "rows", "cols", "scaling", "proc-rows", "proc-cols",
   "slowdim", "rank", "alignment-increment", "alignment-threshold",
   "layout", "fill", "mpi-io", "wall[s]", "fsize[B]",
   "write-phase-min[s]", "write-phase-max[s]",
   "creat-min[s]", "creat-max[s]",
   "write-min[s]", "write-max[s]",
   "read-phase-min[s]", "read-phase-max[s]",
   "read-min[s]", "read-max[s]"]

/-- The 26 values of the data row, in the argument order of the second
`fprintf` (lines 205-218). -/
def csvDataFields (c : Configuration) (st : AggStats) (wall fsize : ℚ) :
    List String :=
  [Nat.repr c.steps, Nat.repr c.arrays, Nat.repr c.rows, Nat.repr c.cols,
   c.scaling, Nat.repr c.proc_rows, Nat.repr c.proc_cols,
   c.slowest_dimension, Nat.repr c.rank,
   Nat.repr c.alignment_increment, Nat.repr c.alignment_threshold,
   c.layout, c.fill_values, c.mpi_io, fmt2 wall, fmt0 fsize,
   fmt2 st.min_write_phase, fmt2 st.max_write_phase,
   fmt2 st.min_create_time, fmt2 st.max_create_time,
   fmt2 st.min_write_time, fmt2 st.max_write_time,
   fmt2 st.min_read_phase, fmt2 st.max_read_phase,
   fmt2 st.min_read_time, fmt2 st.max_read_time]

/-- The CSV file contents: one header row, then one data row. -/
def csvFileContents (c : Configuration) (st : AggStats) (wall fsize : ℚ) :
    String :=
  String.intercalate commaStr csvHeaderFields ++ newlineStr ++
    String.intercalate commaStr (csvDataFields c st wall fsize) ++ newlineStr

/- ### Phase ordering (lines 70-163) -/

/-- The globally relevant actions of `main`, in per-process program order.
Each barrier is split into its arrival (enter) and departure (exit):
MPI guarantees that no process leaves a barrier before every process has
arrived at it. -/
inductive PhaseAct
  | bcastAct
  | barrierEnter (k : Nat)
  | barrierExit (k : Nat)
  | writePhaseAct
  | readPhaseAct
  | statsAct
deriving DecidableEq

/-- `main`'s per-process sequence of globally relevant actions:
`MPI_Bcast` (line 70), barrier (108), write phase (110-113), barrier (115),
read phase (117-120), barrier (122), then the file-size query and the
reduction/report section (129-219). -/
def mainProgram : List PhaseAct :=
  [.bcastAct, .barrierEnter 1, .barrierExit 1, .writePhaseAct,
   .barrierEnter 2, .barrierExit 2, .readPhaseAct,
   .barrierEnter 3, .barrierExit 3, .statsAct]

/-- One event of an execution: process `p` performs the action at position
`i` of `mainProgram`. -/
abbrev PhaseEvent := Nat × Nat

/-- Generators of the happens-before order of any execution: actions of one
process happen in program order, and no process exits a barrier before every
process has entered it. -/
inductive HBStep : PhaseEvent → PhaseEvent → Prop
  | prog (p i j : Nat) : i < j → j < mainProgram.length → HBStep (p, i) (p, j)
  | sync (p q i j k : Nat) : mainProgram.get? i = some (.barrierEnter k) →
      mainProgram.get? j = some (.barrierExit k) → HBStep (p, i) (q, j)

/-- Happens-before: the transitive closure of the generators.  Every
realizable schedule of the run linearizes this order. -/
def happensBefore : PhaseEvent → PhaseEvent → Prop :=
  Relation.TransGen HBStep

/- ### Configuration checking and the shape of a run (lines 57-70) -/

/-- Outcome of rank 0's configuration handling: `ini_parse` failed (line
59), the loaded settings are invalid, or everything checked out. -/
inductive ConfigCheck
  | ok
  | parseFailure
  | invalid
deriving DecidableEq

/-- Externally visible events of one process's run. -/
inductive RunEvent
  | checkEv           -- rank 0 inspects the configuration (lines 57-67)
  | diagEv            -- a diagnostic is printed
  | abortEv (code : Nat)  -- the process terminates with this exit status
  | bcastEv           -- MPI_Bcast of the configuration (line 70)
  | writePhaseEv      -- write_test (lines 110-113)
  | readPhaseEv       -- read_test (lines 117-120)
  | fileSizeEv        -- H5Fget_filesize (lines 129-136)
  | reduceEv          -- the MPI_Reduce block (lines 144-163)
  | csvEv             -- report and CSV emission (lines 165-220)
  | finishEv (code : Nat) -- normal MPI_Finalize / return 0 (lines 222-224)
deriving DecidableEq

/-- The sequence of externally visible events of the process with rank `r`,
given the outcome `chk` of rank 0's configuration check.

Rank 0's behaviour on `parseFailure` is lines 59-63 of the source
(diagnostic `printf`, then `return 1`).

Modelled from the spec: `sanity_check` and `validate` (configuration.c, not
under src/) detect malformed or semantically invalid settings on the
coordinating process, print a diagnostic and abort the run with a non-zero
status before the broadcast; on success they return without any event. -/
def rankRun (r : Nat) (chk : ConfigCheck) : List RunEvent :=
  if r = 0 then
    match chk with
    | .parseFailure => [.checkEv, .diagEv, .abortEv 1]
    | .invalid => [.checkEv, .diagEv, .abortEv 1]
    | .ok => [.checkEv, .bcastEv, .writePhaseEv, .readPhaseEv, .fileSizeEv,
              .reduceEv, .csvEv, .finishEv 0]
  else
    [.bcastEv, .writePhaseEv, .readPhaseEv, .reduceEv, .finishEv 0]

/- ### set_libver_bounds (lines 227-289) -/

/-- The numeric value of `H5F_LIBVER_LATEST` in the `H5F_libver_t`
enumeration of HDF5 release series 1.`minor`: the enumeration lists
`EARLIEST = 0` and then one value per major file-format revision up to the
newest one, which `H5F_LIBVER_LATEST` aliases (1.8: LATEST = 1; 1.10:
V18 = 1, LATEST = V110 = 2; 1.12: LATEST = V112 = 3; 1.13: LATEST = V114 = 4). -/
def libverLatest (minor : Nat) : Nat :=
  if minor ≤ 9 then 1 else if minor ≤ 11 then 2 else if minor = 12 then 3 else 4

/-- Lines 235-257: resolution of `config.libver_bound_low` against a library
of version 1.`minor`.  `low` starts at `H5F_LIBVER_EARLIEST` (0); a
recognized version string maps to its enum value when the compile-time check
`H5_VERSION_GE` admits it and to `H5F_LIBVER_LATEST` otherwise; any other
string (the final `else`) maps to `H5F_LIBVER_LATEST`. -/
def resolveLow (minor : Nat) (s : String) : Nat :=
  if cstrncmp s.toList ("earliest").toList 16 = 0 then 0
  else if cstrncmp s.toList ("v18").toList 16 = 0 then
    (if 10 ≤ minor then 1 else libverLatest minor)
  else if cstrncmp s.toList ("v110").toList 16 = 0 then
    (if 12 ≤ minor then 2 else libverLatest minor)
  else if cstrncmp s.toList ("v112").toList 16 = 0 then
    (if 13 ≤ minor then 3 else libverLatest minor)
  else libverLatest minor

/-- Lines 259-279: resolution of `config.libver_bound_high`.  `high` starts
at `H5F_LIBVER_LATEST` and — unlike the low bound — has no final `else`: an
unrecognized string leaves it at `H5F_LIBVER_LATEST`. -/
def resolveHigh (minor : Nat) (s : String) : Nat :=
  if cstrncmp s.toList ("latest").toList 16 = 0 then libverLatest minor
  else if cstrncmp s.toList ("v18").toList 16 = 0 then
    (if 10 ≤ minor then 1 else libverLatest minor)
  else if cstrncmp s.toList ("v110").toList 16 = 0 then
    (if 12 ≤ minor then 2 else libverLatest minor)
  else if cstrncmp s.toList ("v112").toList 16 = 0 then
    (if 13 ≤ minor then 3 else libverLatest minor)
  else libverLatest minor

/-- The condition checked by `assert(low <= high)` on line 281. -/
def libverBoundsOrdered (minor : Nat) (low high : String) : Prop :=
  resolveLow minor low ≤ resolveHigh minor high

instance (minor : Nat) (low high : String) :
    Decidable (libverBoundsOrdered minor low high) := by
  unfold libverBoundsOrdered; infer_instance

/- ### Helper lemmas about the mode flags -/

theorem string_toList_eq {s t : String} (h : s.toList = t.toList) : s = t :=
  String.ext h

theorem cstr16_eq_iff (s t : String) (hs : NulFree s) (ht : NulFree t)
    (hlen : t.toList.length < 16) :
    cstrncmp s.toList t.toList 16 = 0 ↔ s = t := by
  rw [cstrncmp_eq_zero_iff s.toList t.toList 16 hs ht hlen]
  exact ⟨string_toList_eq, fun h => h ▸ rfl⟩

theorem strong_scaling_flg_iff (c : Configuration) (h : NulFree c.scaling) :
    strong_scaling_flg c = true ↔ c.scaling = "strong" := by
  unfold strong_scaling_flg
  rw [beq_iff_eq]
  exact cstr16_eq_iff c.scaling ("strong") h (by decide) (by decide)

theorem coll_mpi_io_flg_iff (c : Configuration) (h : NulFree c.mpi_io) :
    coll_mpi_io_flg c = true ↔ c.mpi_io = "collective" := by
  unfold coll_mpi_io_flg
  rw [beq_iff_eq]
  exact cstr16_eq_iff c.mpi_io ("collective") h (by decide) (by decide)

theorem resolveLow_le_libverLatest (minor : Nat) (s : String) :
    resolveLow minor s ≤ libverLatest minor := by
  unfold resolveLow libverLatest
  split_ifs <;> omega

/- ### Example configurations (section 8 end-to-end scenarios) -/

/-- Scenario B: 4 processes on a 2x2 grid, strong scaling, global extent
20x20. -/
def cfgStrongB : Configuration :=
  { steps := 1, arrays := 1, rows := 20, cols := 20, scaling := "strong",
    proc_rows := 2, proc_cols := 2, slowest_dimension := "step", rank := 2,
    alignment_increment := 1, alignment_threshold := 1,
    layout := "contiguous", fill_values := "true", mpi_io := "independent",
    libver_bound_low := "earliest", libver_bound_high := "latest",
    hdf5_file := "hdf5_iotest.h5", csv_file := "hdf5_iotest.csv" }

/-- Scenario C: 4 processes on a 2x2 grid, weak scaling, 10x10 per-process
extent. -/
def cfgWeakC : Configuration :=
  { steps := 1, arrays := 1, rows := 10, cols := 10, scaling := "weak",
    proc_rows := 2, proc_cols := 2, slowest_dimension := "step", rank := 2,
    alignment_increment := 1, alignment_threshold := 1,
    layout := "contiguous", fill_values := "true", mpi_io := "foobar",
    libver_bound_low := "earliest", libver_bound_high := "latest",
    hdf5_file := "hdf5_iotest.h5", csv_file := "hdf5_iotest.csv" }

/- ### Claim theorems -/

/-- Claim C1: the aggregator pairs rates and times inversely.  For any run
(rank 0 record `r`, other ranks `rs`), the reported minimum write rate
equals the per-process byte count divided by `1024*1024` times the maximum
write time over all processes, the maximum write rate uses the minimum
write time, the minimum read rate uses the maximum read time, and the
maximum read rate uses the minimum read time. -/
theorem c1_rate_time_pairing (c : Configuration) (r : TimingRecord)
    (rs : List TimingRecord) :
    (∃ t ∈ r.write_time :: rs.map (·.write_time),
      (∀ u ∈ r.write_time :: rs.map (·.write_time), u ≤ t) ∧
      (rateReport c (aggregate r rs)).min_write_rate =
        mainByteCount c / (1024 * 1024 * t)) ∧
    (∃ t ∈ r.write_time :: rs.map (·.write_time),
      (∀ u ∈ r.write_time :: rs.map (·.write_time), t ≤ u) ∧
      (rateReport c (aggregate r rs)).max_write_rate =
        mainByteCount c / (1024 * 1024 * t)) ∧
    (∃ t ∈ r.read_time :: rs.map (·.read_time),
      (∀ u ∈ r.read_time :: rs.map (·.read_time), u ≤ t) ∧
      (rateReport c (aggregate r rs)).min_read_rate =
        mainByteCount c / (1024 * 1024 * t)) ∧
    (∃ t ∈ r.read_time :: rs.map (·.read_time),
      (∀ u ∈ r.read_time :: rs.map (·.read_time), t ≤ u) ∧
      (rateReport c (aggregate r rs)).max_read_rate =
        mainByteCount c / (1024 * 1024 * t)) := by
  refine ⟨⟨mpiReduceMax r.write_time (rs.map (·.write_time)), ?_⟩,
          ⟨mpiReduceMin r.write_time (rs.map (·.write_time)), ?_⟩,
          ⟨mpiReduceMax r.read_time (rs.map (·.read_time)), ?_⟩,
          ⟨mpiReduceMin r.read_time (rs.map (·.read_time)), ?_⟩⟩
  · exact ⟨(mpiReduceMax_spec _ _).1, (mpiReduceMax_spec _ _).2, rfl⟩
  · exact ⟨(mpiReduceMin_spec _ _).1, (mpiReduceMin_spec _ _).2, rfl⟩
  · exact ⟨(mpiReduceMax_spec _ _).1, (mpiReduceMax_spec _ _).2, rfl⟩
  · exact ⟨(mpiReduceMin_spec _ _).1, (mpiReduceMin_spec _ _).2, rfl⟩

/-- Claim C2: the byte count used by all four throughput rates equals
`steps * arrays * local_rows * local_cols * 8` with the reporting process's
own local extent; under the weak-scaling scenario C (2x2 grid, 10x10
per-process extent) it uses the local 10x10, giving 800 bytes per step-array
rather than the 3200 of the 20x20 on-disk extent. -/
theorem c2_byte_count :
    (∀ (c : Configuration) (st : AggStats),
      (rateReport c st).byteCount =
        (c.steps : ℚ) * c.arrays * my_rows c * my_cols c * 8 ∧
      (rateReport c st).min_write_rate =
        (rateReport c st).byteCount / (1024 * 1024 * st.max_write_time) ∧
      (rateReport c st).max_write_rate =
        (rateReport c st).byteCount / (1024 * 1024 * st.min_write_time) ∧
      (rateReport c st).min_read_rate =
        (rateReport c st).byteCount / (1024 * 1024 * st.max_read_time) ∧
      (rateReport c st).max_read_rate =
        (rateReport c st).byteCount / (1024 * 1024 * st.min_read_time)) ∧
    my_rows cfgWeakC = 10 ∧ my_cols cfgWeakC = 10 ∧
    mainByteCount cfgWeakC = 800 ∧
    mainByteCount cfgWeakC ≠ (1 : ℚ) * 1 * 20 * 20 * 8 := by
  refine ⟨fun c st => ⟨rfl, rfl, rfl, rfl, rfl⟩, by decide, by decide, ?_, ?_⟩
  · show byte_count 1 1 (my_rows cfgWeakC) (my_cols cfgWeakC) = 800
    norm_num [byte_count, show my_rows cfgWeakC = 10 from by decide,
      show my_cols cfgWeakC = 10 from by decide]
  · show byte_count 1 1 (my_rows cfgWeakC) (my_cols cfgWeakC) ≠ _
    norm_num [byte_count, show my_rows cfgWeakC = 10 from by decide,
      show my_cols cfgWeakC = 10 from by decide]

/-- Claim C3: the per-process local extent is `rows / proc_rows` by
`cols / proc_cols` (integer division) when the scaling string equals
"strong", and the unchanged global `rows` by `cols` otherwise. -/
theorem c3_local_extent (c : Configuration) (h : NulFree c.scaling) :
    (c.scaling = "strong" →
      my_rows c = c.rows / c.proc_rows ∧ my_cols c = c.cols / c.proc_cols) ∧
    (c.scaling ≠ "strong" → my_rows c = c.rows ∧ my_cols c = c.cols) := by
  constructor
  · intro heq
    have hf : strong_scaling_flg c = true := (strong_scaling_flg_iff c h).mpr heq
    constructor
    · unfold my_rows; rw [if_pos hf]
    · unfold my_cols; rw [if_pos hf]
  · intro hne
    have hf : ¬ strong_scaling_flg c = true :=
      fun ht => hne ((strong_scaling_flg_iff c h).mp ht)
    constructor
    · unfold my_rows; rw [if_neg hf]
    · unfold my_cols; rw [if_neg hf]

/-- Claim C3 witness: scenario B (2x2 grid, global 20x20, strong scaling)
gives every process the local extent (10, 10). -/
theorem c3_local_extent_witness :
    NulFree cfgStrongB.scaling ∧
    ((cfgStrongB.scaling = "strong" →
      my_rows cfgStrongB = cfgStrongB.rows / cfgStrongB.proc_rows ∧
      my_cols cfgStrongB = cfgStrongB.cols / cfgStrongB.proc_cols) ∧
     (cfgStrongB.scaling ≠ "strong" →
      my_rows cfgStrongB = cfgStrongB.rows ∧
      my_cols cfgStrongB = cfgStrongB.cols)) ∧
    my_rows cfgStrongB = 10 ∧ my_cols cfgStrongB = 10 :=
  ⟨by decide, c3_local_extent cfgStrongB (by decide), by decide, by decide⟩

/-- Claim C4: under the configuration invariant
`proc_rows * proc_cols = size`, the map
`rank ↦ (rank / proc_cols, rank % proc_cols)` is a bijection from
`{0, ..., size-1}` onto `{0, ..., proc_rows-1} × {0, ..., proc_cols-1}`. -/
theorem c4_grid_coord_bijection (pr pc size : Nat) (hpc : 0 < pc)
    (hsz : size = pr * pc) :
    Set.BijOn (fun k => gridCoord k pc) (Set.Iio size)
      ((Set.Iio pr) ×ˢ (Set.Iio pc)) := by
  subst hsz
  refine ⟨?_, ?_, ?_⟩
  · intro k hk
    simp only [Set.mem_Iio] at hk
    simp only [gridCoord, Set.mem_prod, Set.mem_Iio]
    exact ⟨(Nat.div_lt_iff_lt_mul hpc).mpr hk, Nat.mod_lt k hpc⟩
  · intro k₁ _ k₂ _ heq
    simp only [gridCoord, Prod.mk.injEq] at heq
    rw [← Nat.div_add_mod k₁ pc, ← Nat.div_add_mod k₂ pc, heq.1, heq.2]
  · intro x hx
    simp only [Set.mem_prod, Set.mem_Iio] at hx
    refine ⟨x.2 + pc * x.1, ?_, ?_⟩
    · simp only [Set.mem_Iio]
      calc x.2 + pc * x.1 < pc + pc * x.1 := by omega
        _ = pc * (x.1 + 1) := by ring
        _ ≤ pc * pr := Nat.mul_le_mul_left pc hx.1
        _ = pr * pc := Nat.mul_comm pc pr
    · simp only [gridCoord]
      rw [Nat.add_mul_div_left _ _ hpc, Nat.add_mul_mod_self_left,
        Nat.div_eq_of_lt hx.2, Nat.mod_eq_of_lt hx.2]
      simp

/-- Claim C4 witness: the concrete 2x3 grid over 6 ranks. -/
theorem c4_grid_coord_bijection_witness :
    0 < 3 ∧ (6 : Nat) = 2 * 3 ∧
    Set.BijOn (fun k => gridCoord k 3) (Set.Iio 6)
      ((Set.Iio 2) ×ˢ (Set.Iio 3)) :=
  ⟨by decide, by decide, c4_grid_coord_bijection 2 3 6 (by decide) rfl⟩

/-- Claim C6: for any non-empty collection of per-process timing records
(rank 0's record `r` plus the other ranks' records `rs`), the aggregated
minimum is at most the aggregated maximum for each of the five tracked
fields, the aggregates being separate MIN and MAX reductions of the same
per-process values. -/
theorem c6_reduced_min_le_max (r : TimingRecord) (rs : List TimingRecord) :
    (aggregate r rs).min_write_phase ≤ (aggregate r rs).max_write_phase ∧
    (aggregate r rs).min_create_time ≤ (aggregate r rs).max_create_time ∧
    (aggregate r rs).min_write_time ≤ (aggregate r rs).max_write_time ∧
    (aggregate r rs).min_read_phase ≤ (aggregate r rs).max_read_phase ∧
    (aggregate r rs).min_read_time ≤ (aggregate r rs).max_read_time :=
  ⟨mpiReduceMin_le_mpiReduceMax _ _, mpiReduceMin_le_mpiReduceMax _ _,
   mpiReduceMin_le_mpiReduceMax _ _, mpiReduceMin_le_mpiReduceMax _ _,
   mpiReduceMin_le_mpiReduceMax _ _⟩

/-- Claim C5 counterexample: the emitted header fields do not carry the
names the design document gives — field 15 (index 14) is "wall [s]" with a
space before the bracketed unit, not "wall[s]". -/
theorem c5_csv_counterexample :
    csvHeaderFields ≠ specHeaderFields ∧
    csvHeaderFields.get ⟨14, by decide⟩ = "wall [s]" ∧
    specHeaderFields.get ⟨14, by decide⟩ = "wall[s]" := by
  decide

set_option maxRecDepth 4000 in
/-- Claim C5 as amended: the emitted CSV is one header row of exactly 26
comma-separated fields, in the section-6 order but with a space before each
bracketed unit, followed by one data row of the corresponding 26 values. -/
theorem c5_csv_structure :
    csvHeaderFields.length = 26 ∧
    String.intercalate commaStr csvHeaderFields ++ newlineStr = csvHeaderLine ∧
    (∀ (c : Configuration) (st : AggStats) (wall fsize : ℚ),
      (csvDataFields c st wall fsize).length = 26 ∧
      csvFileContents c st wall fsize =
        String.intercalate commaStr csvHeaderFields ++ newlineStr ++
        String.intercalate commaStr (csvDataFields c st wall fsize) ++
        newlineStr) := by
  refine ⟨by decide, by decide, fun c st wall fsize => ⟨rfl, rfl⟩⟩

/-- Claim C7: with each process executing `mainProgram` and MPI barrier
semantics (no process exits a barrier before every process has entered it),
the broadcast of every process happens before the write phase of any
process, every process's write phase happens before any process's read
phase, and every process's read phase happens before any process's
statistics section. -/
theorem c7_phase_ordering :
    mainProgram.get? 0 = some PhaseAct.bcastAct ∧
    mainProgram.get? 3 = some PhaseAct.writePhaseAct ∧
    mainProgram.get? 6 = some PhaseAct.readPhaseAct ∧
    mainProgram.get? 9 = some PhaseAct.statsAct ∧
    ∀ p q : Nat,
      happensBefore (p, 0) (q, 3) ∧
      happensBefore (p, 3) (q, 6) ∧
      happensBefore (p, 6) (q, 9) := by
  refine ⟨rfl, rfl, rfl, rfl, fun p q => ⟨?_, ?_, ?_⟩⟩
  · exact Relation.TransGen.head (.prog p 0 1 (by decide) (by decide))
      (Relation.TransGen.head (.sync p q 1 2 1 rfl rfl)
        (Relation.TransGen.single (.prog q 2 3 (by decide) (by decide))))
  · exact Relation.TransGen.head (.prog p 3 4 (by decide) (by decide))
      (Relation.TransGen.head (.sync p q 4 5 2 rfl rfl)
        (Relation.TransGen.single (.prog q 5 6 (by decide) (by decide))))
  · exact Relation.TransGen.head (.prog p 6 7 (by decide) (by decide))
      (Relation.TransGen.head (.sync p q 7 8 3 rfl rfl)
        (Relation.TransGen.single (.prog q 8 9 (by decide) (by decide))))

/-- Claim C8: a malformed (parse failure) or semantically invalid
configuration is detected on rank 0 only, a diagnostic is printed, and the
run aborts with a non-zero status before the broadcast and before any
distributed I/O; no other rank performs the check. -/
theorem c8_config_error_abort (chk : ConfigCheck) (h : chk ≠ ConfigCheck.ok) :
    rankRun 0 chk = [RunEvent.checkEv, RunEvent.diagEv, RunEvent.abortEv 1] ∧
    (1 : Nat) ≠ 0 ∧
    RunEvent.bcastEv ∉ rankRun 0 chk ∧
    RunEvent.writePhaseEv ∉ rankRun 0 chk ∧
    RunEvent.readPhaseEv ∉ rankRun 0 chk ∧
    (∀ r : Nat, r ≠ 0 → RunEvent.checkEv ∉ rankRun r chk) := by
  have hr : ∀ r : Nat, r ≠ 0 → RunEvent.checkEv ∉ rankRun r chk := by
    intro r hrne
    simp [rankRun, hrne]
  cases chk with
  | ok => exact absurd rfl h
  | parseFailure => exact ⟨rfl, by decide, by decide, by decide, by decide, hr⟩
  | invalid => exact ⟨rfl, by decide, by decide, by decide, by decide, hr⟩

/-- Claim C8 witness: the semantically-invalid outcome, concretely. -/
theorem c8_config_error_abort_witness :
    ConfigCheck.invalid ≠ ConfigCheck.ok ∧
    (rankRun 0 ConfigCheck.invalid =
      [RunEvent.checkEv, RunEvent.diagEv, RunEvent.abortEv 1] ∧
     (1 : Nat) ≠ 0 ∧
     RunEvent.bcastEv ∉ rankRun 0 ConfigCheck.invalid ∧
     RunEvent.writePhaseEv ∉ rankRun 0 ConfigCheck.invalid ∧
     RunEvent.readPhaseEv ∉ rankRun 0 ConfigCheck.invalid ∧
     (∀ r : Nat, r ≠ 0 → RunEvent.checkEv ∉ rankRun r ConfigCheck.invalid)) :=
  ⟨by decide, c8_config_error_abort ConfigCheck.invalid (by decide)⟩

/-- Claim C9: after the broadcast the mode selections are two-way fallbacks
examining at most the first 16 characters: a scaling string different from
"strong" selects the weak-scaling local extents, an mpi_io string different
from "collective" selects independent transfers, no third outcome exists,
and either comparison depends only on the first 16 characters of the
configured string. -/
theorem c9_mode_selection_fallback (c : Configuration)
    (hs : NulFree c.scaling) (hm : NulFree c.mpi_io) :
    (c.scaling ≠ "strong" → my_rows c = c.rows ∧ my_cols c = c.cols) ∧
    (c.mpi_io ≠ "collective" → xferMode c = XferMode.independent) ∧
    (xferMode c = XferMode.collective ∨ xferMode c = XferMode.independent) ∧
    (∀ c' : Configuration,
      c'.scaling.toList.take 16 = c.scaling.toList.take 16 →
      strong_scaling_flg c' = strong_scaling_flg c) ∧
    (∀ c' : Configuration,
      c'.mpi_io.toList.take 16 = c.mpi_io.toList.take 16 →
      coll_mpi_io_flg c' = coll_mpi_io_flg c) := by
  refine ⟨?_, ?_, ?_, ?_, ?_⟩
  · intro hne
    have hf : ¬ strong_scaling_flg c = true :=
      fun ht => hne ((strong_scaling_flg_iff c hs).mp ht)
    exact ⟨by unfold my_rows; rw [if_neg hf], by unfold my_cols; rw [if_neg hf]⟩
  · intro hne
    have hf : ¬ coll_mpi_io_flg c = true :=
      fun ht => hne ((coll_mpi_io_flg_iff c hm).mp ht)
    unfold xferMode
    rw [if_neg hf]
  · unfold xferMode
    by_cases hf : coll_mpi_io_flg c = true
    · exact .inl (by rw [if_pos hf])
    · exact .inr (by rw [if_neg hf])
  · intro c' hc'
    unfold strong_scaling_flg
    rw [cstrncmp_take, hc', ← cstrncmp_take]
  · intro c' hc'
    unfold coll_mpi_io_flg
    rw [cstrncmp_take, hc', ← cstrncmp_take]

/-- Claim C9 witness: scenario C's configuration carries the unrecognized
mpi_io string "foobar" and the non-"strong" scaling string "weak"; the
fallbacks select the weak extents and independent transfers. -/
theorem c9_mode_selection_fallback_witness :
    NulFree cfgWeakC.scaling ∧ NulFree cfgWeakC.mpi_io ∧
    ((cfgWeakC.scaling ≠ "strong" →
        my_rows cfgWeakC = cfgWeakC.rows ∧ my_cols cfgWeakC = cfgWeakC.cols) ∧
     (cfgWeakC.mpi_io ≠ "collective" →
        xferMode cfgWeakC = XferMode.independent) ∧
     (xferMode cfgWeakC = XferMode.collective ∨
        xferMode cfgWeakC = XferMode.independent) ∧
     (∀ c' : Configuration,
        c'.scaling.toList.take 16 = cfgWeakC.scaling.toList.take 16 →
        strong_scaling_flg c' = strong_scaling_flg cfgWeakC) ∧
     (∀ c' : Configuration,
        c'.mpi_io.toList.take 16 = cfgWeakC.mpi_io.toList.take 16 →
        coll_mpi_io_flg c' = coll_mpi_io_flg cfgWeakC)) ∧
    xferMode cfgWeakC = XferMode.independent :=
  ⟨by decide, by decide,
   c9_mode_selection_fallback cfgWeakC (by decide) (by decide), by decide⟩

/-- Claim C10 counterexample: against a 1.12 library, the unrecognized low
bound "foo" falls back to `H5F_LIBVER_LATEST` (3) while the high bound
"v18" resolves to `H5F_LIBVER_V18` (1), so the resolved bounds violate
`low <= high` and the assertion on line 281 fires. -/
theorem c10_libver_counterexample :
    resolveLow 12 ("foo") = 3 ∧ resolveHigh 12 ("v18") = 1 ∧
    ¬ libverBoundsOrdered 12 ("foo") ("v18") := by decide

/-- Claim C10 as amended: the resolved bounds satisfy `low <= high` whenever
the high bound resolves to `H5F_LIBVER_LATEST` (its string is "latest",
unrecognized, or names a version the compiled library does not support) or
the low-bound string is "earliest"; outside these cases the assertion can
fail, as the counterexample shows. -/
theorem c10_libver_bounds_ordered (minor : Nat) (low high : String)
    (h : resolveHigh minor high = libverLatest minor ∨
         cstrncmp low.toList ("earliest").toList 16 = 0) :
    libverBoundsOrdered minor low high := by
  unfold libverBoundsOrdered
  rcases h with h | h
  · rw [h]
    exact resolveLow_le_libverLatest minor low
  · unfold resolveLow
    rw [if_pos h]
    exact Nat.zero_le _

/-- Claim C10 witness: low "earliest" with high "v18" against a 1.12
library is ordered. -/
theorem c10_libver_bounds_ordered_witness :
    (resolveHigh 12 ("v18") = libverLatest 12 ∨
      cstrncmp ("earliest").toList ("earliest").toList 16 = 0) ∧
    libverBoundsOrdered 12 ("earliest") ("v18") :=
  ⟨Or.inr (by decide),
   c10_libver_bounds_ordered 12 ("earliest") ("v18") (Or.inr (by decide))⟩

end Hdf5Iotest
